import Mathlib

/-!
Verification of the Synthetica backend (`main.py`).

The development shallowly embeds the product-catalog store, its CRUD
service, the durable JSON persistence layer, the heuristic context
retrieval, and the assistant proxy pipeline.  Python floats (`price`,
temperatures, coordinates) are modelled as `Rat`; no claim performs
float arithmetic, only storage and comparison of these values.  Python
ints are modelled as `Int`.  External collaborators (completion
provider, weather API) are modelled as explicit oracle parameters.
-/

set_option autoImplicit false

/-! ## JSON values (the durable file and request payloads) -/

/-- A parsed JSON document, as produced by `json.load` / consumed by
`json.dump`.  Python distinguishes JSON ints from JSON floats, hence the
two numeric constructors. -/
inductive JValue where
  | jnull : JValue
  | jbool (b : Bool) : JValue
  | jint (n : Int) : JValue
  | jnum (q : Rat) : JValue
  | jstr (s : String) : JValue
  | jarr (elems : List JValue) : JValue
  | jobj (fields : List (String × JValue)) : JValue

/-- Python `dict.get(key)` on a JSON object: first binding of `key`,
`none` when absent (parsed JSON objects have unique keys). -/
def jget (fields : List (String × JValue)) (key : String) : Option JValue :=
  match fields with
  | [] => none
  | (k, v) :: rest => if k = key then some v else jget rest key

/-! ## Data model (`main.py` lines 36-47) -/

/-- Model of `class Product(BaseModel)`: title, description, category, price
(float, modelled as `Rat`), and four optional fields. -/
structure Product where
  title : String
  description : String
  category : String
  price : Rat
  image : Option String
  brand : Option String
  model : Option String
  year : Option Int
deriving DecidableEq

/-- Model of `class ProductInDB(Product)`: a `Product` plus an integer `id`. -/
structure ProductInDB extends Product where
  id : Int
deriving DecidableEq

/-- The module-level mutable state: `products_db` (ordered list) and
`product_id_counter`. -/
structure CatalogState where
  products_db : List ProductInDB
  product_id_counter : Int
deriving DecidableEq

/-! ## Durable persistence (`main.py` lines 57, 68-84) -/

/-- Encoding of an optional string field in a product dict (`None`
serializes to JSON null). -/
def jstrOpt (s : Option String) : JValue :=
  match s with
  | some v => JValue.jstr v
  | none => JValue.jnull

/-- Encoding of an optional int field in a product dict. -/
def jintOpt (n : Option Int) : JValue :=
  match n with
  | some v => JValue.jint v
  | none => JValue.jnull

/-- The JSON object `product.dict()` with `"id"` added, in Python dict
insertion order. -/
def encodeProduct (p : ProductInDB) : JValue :=
  JValue.jobj
    [("title", JValue.jstr p.title),
     ("description", JValue.jstr p.description),
     ("category", JValue.jstr p.category),
     ("price", JValue.jnum p.price),
     ("image", jstrOpt p.image),
     ("brand", jstrOpt p.brand),
     ("model", jstrOpt p.model),
     ("year", jintOpt p.year),
     ("id", JValue.jint p.id)]

/-- Reading a required string field back from a product dict. -/
def decodeStr (j : Option JValue) : Option String :=
  match j with
  | some (JValue.jstr s) => some s
  | _ => none

/-- Reading an optional string field back from a product dict. -/
def decodeOptStr (j : Option JValue) : Option (Option String) :=
  match j with
  | some (JValue.jstr s) => some (some s)
  | some JValue.jnull => some none
  | _ => none

/-- Reading an optional int field back from a product dict. -/
def decodeOptInt (j : Option JValue) : Option (Option Int) :=
  match j with
  | some (JValue.jint n) => some (some n)
  | some JValue.jnull => some none
  | _ => none

/-- Reading a float field back from a product dict. -/
def decodeNum (j : Option JValue) : Option Rat :=
  match j with
  | some (JValue.jnum q) => some q
  | _ => none

/-- Reading an int field back from a product dict. -/
def decodeInt (j : Option JValue) : Option Int :=
  match j with
  | some (JValue.jint n) => some n
  | _ => none

/-- Interpreting a stored product dict as a `ProductInDB`. -/
def decodeProduct (j : JValue) : Option ProductInDB :=
  match j with
  | JValue.jobj fields => do
      let title ← decodeStr (jget fields "title")
      let description ← decodeStr (jget fields "description")
      let category ← decodeStr (jget fields "category")
      let price ← decodeNum (jget fields "price")
      let image ← decodeOptStr (jget fields "image")
      let brand ← decodeOptStr (jget fields "brand")
      let mdl ← decodeOptStr (jget fields "model")
      let year ← decodeOptInt (jget fields "year")
      let id ← decodeInt (jget fields "id")
      pure { title := title, description := description, category := category,
             price := price, image := image, brand := brand, model := mdl,
             year := year, id := id }
  | _ => none

/-- Interpreting a stored product array elementwise. -/
def decodeList (l : List JValue) : Option (List ProductInDB) :=
  match l with
  | [] => some []
  | j :: rest =>
      match decodeProduct j, decodeList rest with
      | some p, some ps => some (p :: ps)
      | _, _ => none

/-- Model of `save_products(products, counter)` (lines 79-84): the JSON document
`json.dump` writes to `DATA_FILE`, namely
`{"products": products, "counter": counter}` (UTF-8, `ensure_ascii=False`,
so strings are written verbatim). -/
def save_products (products : List ProductInDB) (counter : Int) : JValue :=
  JValue.jobj
    [("products", JValue.jarr (products.map encodeProduct)),
     ("counter", JValue.jint counter)]

/-- Model of `load_products()` (lines 68-76).  Input: the parsed durable file, or
`none` when the file is absent or any read/parse step raises.  Returns
`(data.get("products", []), data.get("counter", 1))`; a non-object
document raises on `.get` and falls into the `([], 1)` branch. -/
def load_products (file : Option JValue) : JValue × JValue :=
  match file with
  | some (JValue.jobj fields) =>
      ((jget fields "products").getD (JValue.jarr []),
       (jget fields "counter").getD (JValue.jint 1))
  | _ => (JValue.jarr [], JValue.jint 1)

/-! ## Catalog service (`main.py` lines 146-201) -/

/-- The 404 error raised by `get`/`update`/`delete` on a missing id. -/
structure HTTPError where
  status : Nat
  detail : String
deriving DecidableEq

/-- The error `HTTPException(status_code=404, detail="Produto não encontrado")`. -/
def notFound : HTTPError := ⟨404, "Produto não encontrado"⟩

/-- Endpoint `GET /api/products` (lines 146-148): the full ordered list. -/
def get_products (s : CatalogState) : List ProductInDB :=
  s.products_db

/-- The linear first-match scan in `get_product` (lines 152-154). -/
def find_product (l : List ProductInDB) (product_id : Int) : Option ProductInDB :=
  match l with
  | [] => none
  | p :: rest => if p.id = product_id then some p else find_product rest product_id

/-- Endpoint `GET /api/products/(id)` (lines 150-155): first entry with a
matching id, else 404. -/
def get_product (s : CatalogState) (product_id : Int) : Except HTTPError ProductInDB :=
  match find_product s.products_db product_id with
  | some p => Except.ok p
  | none => Except.error notFound

/-- Endpoint `POST /api/products` (lines 157-170): assign the counter as id,
append, increment the counter, write the durable file.  The third
component is the document written by `save_products`. -/
def create_product (s : CatalogState) (product : Product) :
    ProductInDB × CatalogState × JValue :=
  let product_dict : ProductInDB := { toProduct := product, id := s.product_id_counter }
  let db := s.products_db ++ [product_dict]
  let counter := s.product_id_counter + 1
  (product_dict, ⟨db, counter⟩, save_products db counter)

/-- The in-place replacement loop of `update_product` (lines 176-185):
replace the first entry whose id matches, keep everything else. -/
def update_in_db (l : List ProductInDB) (product_id : Int) (product : Product) :
    Option (ProductInDB × List ProductInDB) :=
  match l with
  | [] => none
  | p :: rest =>
      if p.id = product_id then
        let product_dict : ProductInDB := { toProduct := product, id := product_id }
        some (product_dict, product_dict :: rest)
      else
        match update_in_db rest product_id product with
        | some (r, rest2) => some (r, p :: rest2)
        | none => none

/-- Endpoint `PUT /api/products/(id)` (lines 172-186).  Returns the HTTP result,
the post-call state, and the durable write performed (`none` when the
loop falls through to the 404 and `save_products` is never called). -/
def update_product (s : CatalogState) (product_id : Int) (product : Product) :
    Except HTTPError ProductInDB × CatalogState × Option JValue :=
  match update_in_db s.products_db product_id product with
  | some (r, db2) =>
      (Except.ok r, ⟨db2, s.product_id_counter⟩,
       some (save_products db2 s.product_id_counter))
  | none => (Except.error notFound, s, none)

/-- The removal loop of `delete_product` (lines 192-199): pop the first
entry whose id matches. -/
def delete_in_db (l : List ProductInDB) (product_id : Int) : Option (List ProductInDB) :=
  match l with
  | [] => none
  | p :: rest =>
      if p.id = product_id then some rest
      else
        match delete_in_db rest product_id with
        | some rest2 => some (p :: rest2)
        | none => none

/-- Endpoint `DELETE /api/products/(id)` (lines 188-201), same conventions as
`update_product`; the success payload is the confirmation message. -/
def delete_product (s : CatalogState) (product_id : Int) :
    Except HTTPError String × CatalogState × Option JValue :=
  match delete_in_db s.products_db product_id with
  | some db2 =>
      (Except.ok "Produto excluído com sucesso", ⟨db2, s.product_id_counter⟩,
       some (save_products db2 s.product_id_counter))
  | none => (Except.error notFound, s, none)

/-! ## The counter invariant and operation sequences -/

/-- The spec's invariant: the counter is strictly greater than every
identifier currently present. -/
def counterInvariant (s : CatalogState) : Prop :=
  ∀ p ∈ s.products_db, p.id < s.product_id_counter

/-- One mutating catalog request. -/
inductive CatalogOp where
  | createOp (product : Product) : CatalogOp
  | updateOp (product_id : Int) (product : Product) : CatalogOp
  | deleteOp (product_id : Int) : CatalogOp

/-- The state after serving one mutating request (a failed update or
delete leaves the state as it was). -/
def applyOp (s : CatalogState) (op : CatalogOp) : CatalogState :=
  match op with
  | CatalogOp.createOp product => (create_product s product).2.1
  | CatalogOp.updateOp product_id product => (update_product s product_id product).2.1
  | CatalogOp.deleteOp product_id => (delete_product s product_id).2.1

/-- The state after serving a sequence of mutating requests. -/
def runOps (s : CatalogState) (ops : List CatalogOp) : CatalogState :=
  match ops with
  | [] => s
  | op :: rest => runOps (applyOp s op) rest

/-- The identifiers returned by the create requests of a sequence, in
order of assignment. -/
def createdIds (s : CatalogState) (ops : List CatalogOp) : List Int :=
  match ops with
  | [] => []
  | CatalogOp.createOp product :: rest =>
      (create_product s product).1.id :: createdIds (applyOp s (CatalogOp.createOp product)) rest
  | op :: rest => createdIds (applyOp s op) rest

/-! ## Heuristic context retrieval (`main.py` lines 59-92) -/

/-- The list `base_conhecimento` (lines 60-65), verbatim. -/
def base_conhecimento : List String :=
  ["A inteligência artificial tem revolucionado o mundo da arte generativa, permitindo a criação de obras únicas por meio de redes neurais.",
   "Realidade aumentada e IA têm sido combinadas em experiências culturais imersivas, como exposições interativas em museus.",
   "Avanços tecnológicos como computação quântica e IA simbólica estão moldando o futuro da criatividade artificial.",
   "IA criativa pode colaborar com artistas, oferecendo sugestões de composição, paletas de cor ou até mesmo criando música original."]

/-- Splitting a character list on whitespace runs, with the (reversed)
current word as accumulator. -/
def wordsAux (cs : List Char) (acc : List Char) : List (List Char) :=
  match cs with
  | [] => if acc.isEmpty then [] else [acc.reverse]
  | c :: rest =>
      if c.isWhitespace then
        if acc.isEmpty then wordsAux rest []
        else acc.reverse :: wordsAux rest []
      else wordsAux rest (c :: acc)

/-- Python `str.split()` with no argument: split on runs of whitespace,
discarding empty pieces. -/
def tokensOf (text : String) : List String :=
  (wordsAux text.data []).map (fun cs => String.mk cs)

/-- Python `str.lower()`, characterwise.  The knowledge base and every
input a claim evaluates contain only ASCII uppercase letters, for which
`Char.toLower` agrees with Python. -/
def lowerStr (s : String) : String :=
  String.mk (s.data.map Char.toLower)

/-- Whether the first list is an initial segment of the second. -/
def isPrefixChars (needle hay : List Char) : Bool :=
  match needle, hay with
  | [], _ => true
  | _ :: _, [] => false
  | a :: as, b :: bs => a == b && isPrefixChars as bs

/-- Python substring containment `needle in hay`, scanning every start
position. -/
def hasSubstr (needle hay : List Char) : Bool :=
  match hay with
  | [] => isPrefixChars needle []
  | _ :: rest => isPrefixChars needle hay || hasSubstr needle rest

/-- Python `needle in hay` on strings. -/
def strIn (needle hay : String) : Bool :=
  hasSubstr needle.data hay.data

/-- Model of `buscar_conteudo_relevante` (lines 90-92): keep each knowledge-base
entry for which some whitespace token of the user message is a
case-insensitive substring of the entry (`palavra.lower() in
doc.lower()`); join matches with newlines, else the fixed marker. -/
def buscar_conteudo_relevante (preferencia_usuario : String) : String :=
  let resultados := base_conhecimento.filter
    (fun doc => (tokensOf preferencia_usuario).any
      (fun palavra => strIn (lowerStr palavra) (lowerStr doc)))
  if resultados ≠ [] then String.intercalate "\n" resultados
  else "Nenhuma informação relevante encontrada."

/-- The derivation rule exactly as the claim words it: keep each entry
that shares at least one whitespace-delimited token (case-insensitive)
with the user message, i.e. some token of the message equals, up to
case, some token of the entry. -/
def contexto_por_tokens (preferencia_usuario : String) : String :=
  let resultados := base_conhecimento.filter
    (fun doc => (tokensOf preferencia_usuario).any
      (fun palavra => (tokensOf doc).any (fun w => lowerStr palavra == lowerStr w)))
  if resultados ≠ [] then String.intercalate "\n" resultados
  else "Nenhuma informação relevante encontrada."

/-- The spec-level notion of one string occurring contiguously inside
another. -/
def occursIn (needle hay : String) : Prop :=
  ∃ pre post : List Char, hay.data = pre ++ needle.data ++ post

/-! ## Assistant proxy (`main.py` lines 95-104, 204-282) -/

/-- One entry of a provider `tool_calls` list: the call id together with
the parsed `latitude`/`longitude` arguments. -/
structure ToolCall where
  id : String
  latitude : Rat
  longitude : Rat

/-- Model of `completion.choices[0].message` as the pipeline inspects it: the
text content, and the `tool_calls` list (empty when the attribute is
absent or falsy). -/
structure ProviderMessage where
  content : String
  tool_calls : List ToolCall

/-- One element of the `messages` list submitted to the provider.
`assistantDump` is `response_message.model_dump()`; `toolResult` is the
`{"role": "tool", "tool_call_id": ..., "content": str(resultado)}` dict,
carrying the numeric result that `str` renders. -/
inductive Msg where
  | system (content : String) : Msg
  | user (content : String) : Msg
  | assistantDump (message : ProviderMessage) : Msg
  | toolResult (tool_call_id : String) (resultado : Rat) : Msg

/-- Model of `get_weather` (lines 95-104): query the external weather API
(modelled as an oracle returning `none` when any step of the request
raises) and fall back to the fixed default 25.0 on failure. -/
def get_weather (weather_api : Rat → Rat → Option Rat)
    (latitude longitude : Rat) : Rat :=
  match weather_api latitude longitude with
  | some temperature => temperature
  | none => 25

/-- Model of `class BuddyRequest(BaseModel)` (lines 50-54), with each optional
field at its declared default when omitted. -/
structure BuddyRequest where
  message : String
  context : String
  history : List Msg
  voice_enabled : Bool

/-- The JSON body returned by `/api/buddy`. -/
structure BuddyResponse where
  response : String
  audio_url : Option String

/-- Observable outbound traffic of one `/api/buddy` request: the
message sequence of the first completion submission, of the follow-up
submission (when one happens), and the coordinate pairs passed to
`get_weather`. -/
structure BuddyEffects where
  first_messages : Option (List Msg)
  followup_messages : Option (List Msg)
  weather_calls : List (Rat × Rat)

/-- Python `resposta_final.replace(" ", "%20")`: every space becomes
the three characters `%20` (faithful to `str.replace` for a single-char
pattern). -/
def replaceSpaces (s : String) : String :=
  String.mk ((s.data.map (fun c => if c = ' ' then ['%', '2', '0'] else [c])).flatten)

/-- The fixed system persona message (lines 227-230). -/
def systemPersona : String :=
  "Você é Buddy, um agente de IA do ano 2047 que recomenda conteúdos personalizados sobre arte, cultura e tecnologia."

/-- Starlette `str(HTTPException)`: `"{status_code}: {detail}"`. -/
def strOfHTTPError (e : HTTPError) : String :=
  toString e.status ++ ": " ++ e.detail

/-- Model of `process_buddy_request` (lines 204-282).  The external completion
provider is modelled by the message it returns to the first submission
(`first`) and to the follow-up submission (`second`); the weather API is
the oracle passed through to `get_weather`.

The whole handler body sits inside `try: ... except Exception as e:
raise HTTPException(status_code=500, detail=str(e))`, and FastAPI's
`HTTPException` is an `Exception` subclass, so the
`HTTPException(status_code=400, detail="Mensagem vazia")` raised for an
empty message is caught by that blanket handler and re-raised as a 500
whose detail is `str(e)` = `"400: Mensagem vazia"`. -/
def process_buddy_request (first second : ProviderMessage)
    (weather_api : Rat → Rat → Option Rat) (request : BuddyRequest) :
    Except HTTPError BuddyResponse × BuddyEffects :=
  if request.message = "" then
    (Except.error ⟨500, strOfHTTPError ⟨400, "Mensagem vazia"⟩⟩, ⟨none, none, []⟩)
  else
    let context :=
      if request.context = "" then buscar_conteudo_relevante request.message
      else request.context
    let messages : List Msg :=
      if request.history.isEmpty then
        [Msg.system systemPersona,
         Msg.user ("Oi Buddy! " ++ request.message ++ "\n\nContexto:\n" ++ context)]
      else request.history
    match first.tool_calls with
    | tool_call :: _ =>
        let resultado := get_weather weather_api tool_call.latitude tool_call.longitude
        let messages2 :=
          messages ++ [Msg.assistantDump first, Msg.toolResult tool_call.id resultado]
        let resposta_final := second.content
        let audio_url :=
          if request.voice_enabled then
            some ("/api/buddy/speech?text=" ++ replaceSpaces resposta_final)
          else none
        (Except.ok ⟨resposta_final, audio_url⟩,
         ⟨some messages, some messages2, [(tool_call.latitude, tool_call.longitude)]⟩)
    | [] =>
        let resposta_final := first.content
        let audio_url :=
          if request.voice_enabled then
            some ("/api/buddy/speech?text=" ++ replaceSpaces resposta_final)
          else none
        (Except.ok ⟨resposta_final, audio_url⟩, ⟨some messages, none, []⟩)

/-! ## Sample data for concrete instantiations -/

/-- A sample product. -/
def prodX : Product := ⟨"X", "desc X", "cat", 10, none, none, none, none⟩

/-- A second sample product, differing from `prodX` in every required
field. -/
def prodY : Product := ⟨"Y", "desc Y", "Neuro", 20, some "/img", some "marca", some "m", some 2023⟩

/-! ## Catalog lemmas -/

theorem find_product_append (l l2 : List ProductInDB) (product_id : Int)
    (h : ∀ p ∈ l, p.id ≠ product_id) :
    find_product (l ++ l2) product_id = find_product l2 product_id := by
  induction l with
  | nil => rfl
  | cons p rest ih =>
      have hp : p.id ≠ product_id := h p (by simp)
      simp only [List.cons_append, find_product, if_neg hp]
      exact ih (fun q hq => h q (by simp [hq]))

theorem update_in_db_none (l : List ProductInDB) (product_id : Int) (product : Product)
    (h : ∀ p ∈ l, p.id ≠ product_id) :
    update_in_db l product_id product = none := by
  induction l with
  | nil => rfl
  | cons p rest ih =>
      have hp : p.id ≠ product_id := h p (by simp)
      simp only [update_in_db, if_neg hp]
      rw [ih (fun q hq => h q (by simp [hq]))]

theorem crud_first_match (l : List ProductInDB) (product_id : Int) (product : Product)
    (h : ∃ p ∈ l, p.id = product_id) :
    ∃ pre q post, l = pre ++ q :: post ∧ q.id = product_id ∧
      (∀ r ∈ pre, r.id ≠ product_id) ∧
      update_in_db l product_id product =
        some ({ toProduct := product, id := product_id },
              pre ++ { toProduct := product, id := product_id } :: post) ∧
      delete_in_db l product_id = some (pre ++ post) := by
  induction l with
  | nil => simp at h
  | cons p rest ih =>
      by_cases hp : p.id = product_id
      · exact ⟨[], p, rest, by simp, hp, by simp,
          by simp [update_in_db, if_pos hp], by simp [delete_in_db, if_pos hp]⟩
      · have hrest : ∃ q ∈ rest, q.id = product_id := by
          obtain ⟨q, hq, hqid⟩ := h
          rcases List.mem_cons.mp hq with rfl | hq2
          · exact absurd hqid hp
          · exact ⟨q, hq2, hqid⟩
        obtain ⟨pre, q, post, hl, hqid, hpre, hupd, hdel⟩ := ih hrest
        refine ⟨p :: pre, q, post, by simp [hl], hqid, ?_, ?_, ?_⟩
        · intro r hr
          rcases List.mem_cons.mp hr with rfl | hr2
          · exact hp
          · exact hpre r hr2
        · simp only [update_in_db, if_neg hp, hupd, List.cons_append]
        · simp only [delete_in_db, if_neg hp, hdel, List.cons_append]

theorem update_in_db_bound (l : List ProductInDB) (product_id : Int) (product : Product)
    (c : Int) (h : ∀ p ∈ l, p.id < c) :
    ∀ r l2, update_in_db l product_id product = some (r, l2) → ∀ p ∈ l2, p.id < c := by
  induction l with
  | nil => intro r l2 hu; simp [update_in_db] at hu
  | cons p rest ih =>
      intro r l2 hu
      by_cases hp : p.id = product_id
      · simp only [update_in_db, if_pos hp, Option.some.injEq, Prod.mk.injEq] at hu
        obtain ⟨-, rfl⟩ := hu
        intro q hq
        rcases List.mem_cons.mp hq with rfl | hq2
        · exact hp ▸ h p (by simp)
        · exact h q (by simp [hq2])
      · simp only [update_in_db, if_neg hp] at hu
        cases hu2 : update_in_db rest product_id product with
        | none => rw [hu2] at hu; simp at hu
        | some v =>
            obtain ⟨r2, rest2⟩ := v
            rw [hu2] at hu
            simp only [Option.some.injEq, Prod.mk.injEq] at hu
            obtain ⟨-, rfl⟩ := hu
            intro q hq
            rcases List.mem_cons.mp hq with rfl | hq2
            · exact h q (by simp)
            · exact ih (fun x hx => h x (by simp [hx])) r2 rest2 hu2 q hq2

theorem delete_in_db_subset (l : List ProductInDB) (product_id : Int) :
    ∀ l2, delete_in_db l product_id = some l2 → ∀ p ∈ l2, p ∈ l := by
  induction l with
  | nil => intro l2 hd; simp [delete_in_db] at hd
  | cons p rest ih =>
      intro l2 hd
      by_cases hp : p.id = product_id
      · simp only [delete_in_db, if_pos hp, Option.some.injEq] at hd
        subst hd
        exact fun q hq => by simp [hq]
      · simp only [delete_in_db, if_neg hp] at hd
        cases hd2 : delete_in_db rest product_id with
        | none => rw [hd2] at hd; simp at hd
        | some rest2 =>
            rw [hd2] at hd
            simp only [Option.some.injEq] at hd
            subst hd
            intro q hq
            rcases List.mem_cons.mp hq with rfl | hq2
            · simp
            · simp [ih rest2 hd2 q hq2]

theorem applyOp_counter (s : CatalogState) (op : CatalogOp) :
    s.product_id_counter ≤ (applyOp s op).product_id_counter := by
  cases op with
  | createOp product =>
      have h : (applyOp s (CatalogOp.createOp product)).product_id_counter =
          s.product_id_counter + 1 := rfl
      omega
  | updateOp product_id product =>
      simp only [applyOp, update_product]
      cases update_in_db s.products_db product_id product with
      | none => exact le_refl _
      | some v => exact le_refl _
  | deleteOp product_id =>
      simp only [applyOp, delete_product]
      cases delete_in_db s.products_db product_id with
      | none => exact le_refl _
      | some v => exact le_refl _

theorem applyOp_preserves_invariant (s : CatalogState) (op : CatalogOp)
    (h : counterInvariant s) : counterInvariant (applyOp s op) := by
  cases op with
  | createOp product =>
      intro p hp
      simp only [applyOp, create_product] at hp ⊢
      rcases List.mem_append.mp hp with hp2 | hp2
      · have := h p hp2; omega
      · simp at hp2; subst hp2; simp
  | updateOp product_id product =>
      simp only [applyOp, update_product]
      cases hu : update_in_db s.products_db product_id product with
      | none => exact h
      | some v =>
          obtain ⟨r, l2⟩ := v
          exact update_in_db_bound s.products_db product_id product
            s.product_id_counter h r l2 hu
  | deleteOp product_id =>
      simp only [applyOp, delete_product]
      cases hd : delete_in_db s.products_db product_id with
      | none => exact h
      | some l2 =>
          intro p hp
          exact h p (delete_in_db_subset s.products_db product_id l2 hd p hp)

theorem createdIds_lower_bound (ops : List CatalogOp) (s : CatalogState) :
    ∀ i ∈ createdIds s ops, s.product_id_counter ≤ i := by
  induction ops generalizing s with
  | nil => simp [createdIds]
  | cons op rest ih =>
      cases op with
      | createOp product =>
          intro i hi
          simp only [createdIds, List.mem_cons] at hi
          have hc : (create_product s product).1.id = s.product_id_counter := rfl
          rcases hi with rfl | hi2
          · omega
          · have h1 := ih (applyOp s (CatalogOp.createOp product)) i hi2
            have h2 : (applyOp s (CatalogOp.createOp product)).product_id_counter =
                s.product_id_counter + 1 := rfl
            omega
      | updateOp product_id product =>
          intro i hi
          have h1 := ih (applyOp s (CatalogOp.updateOp product_id product)) i hi
          have h2 := applyOp_counter s (CatalogOp.updateOp product_id product)
          omega
      | deleteOp product_id =>
          intro i hi
          have h1 := ih (applyOp s (CatalogOp.deleteOp product_id)) i hi
          have h2 := applyOp_counter s (CatalogOp.deleteOp product_id)
          omega

theorem createdIds_pairwise (ops : List CatalogOp) (s : CatalogState) :
    List.Pairwise (· < ·) (createdIds s ops) := by
  induction ops generalizing s with
  | nil => simp [createdIds]
  | cons op rest ih =>
      cases op with
      | createOp product =>
          simp only [createdIds]
          refine List.Pairwise.cons ?_ (ih _)
          intro i hi
          have h1 := createdIds_lower_bound rest (applyOp s (CatalogOp.createOp product)) i hi
          have h2 : (applyOp s (CatalogOp.createOp product)).product_id_counter =
              s.product_id_counter + 1 := rfl
          have h3 : (create_product s product).1.id = s.product_id_counter := rfl
          omega
      | updateOp product_id product => exact ih _
      | deleteOp product_id => exact ih _

/-! ## Claim C3 -/

/-- C3: starting from any catalog state whose next-identifier counter is
strictly greater than every identifier present, every create, update and
delete preserves that invariant; along any request sequence the
identifiers returned by creates are strictly increasing (each strictly
greater than all previously assigned ones); and an identifier present in
the catalog — in particular one about to be removed by delete — is never
assigned by any later create. -/
theorem c3_counter_invariant_and_id_freshness (s : CatalogState) (h : counterInvariant s) :
    (∀ op : CatalogOp, counterInvariant (applyOp s op)) ∧
    (∀ ops : List CatalogOp, List.Pairwise (· < ·) (createdIds s ops)) ∧
    (∀ p ∈ s.products_db, ∀ ops : List CatalogOp,
        p.id ∉ createdIds (delete_product s p.id).2.1 ops) := by
  refine ⟨fun op => applyOp_preserves_invariant s op h,
          fun ops => createdIds_pairwise ops s, ?_⟩
  intro p hp ops hmem
  have hlt : p.id < s.product_id_counter := h p hp
  have hcd : (delete_product s p.id).2.1.product_id_counter = s.product_id_counter := by
    simp only [delete_product]
    cases delete_in_db s.products_db p.id with
    | none => rfl
    | some l2 => rfl
  have hge := createdIds_lower_bound ops (delete_product s p.id).2.1 p.id hmem
  omega

/-- Witness for C3 at the empty initial state and two concrete creates. -/
theorem c3_witness :
    List.Pairwise (· < ·)
      (createdIds ⟨[], 1⟩ [CatalogOp.createOp prodX, CatalogOp.createOp prodY]) :=
  (c3_counter_invariant_and_id_freshness ⟨[], 1⟩ (by intro p hp; simp at hp)).2.1 _

/-! ## Claim C4 -/

/-- C4: updating an identifier that is not present fails with the
NotFound error and leaves the product list (hence its order), the
next-identifier counter, and the durable file untouched (no
`save_products` write happens). -/
theorem c4_update_not_found (s : CatalogState) (product_id : Int) (product : Product)
    (h : ∀ p ∈ s.products_db, p.id ≠ product_id) :
    update_product s product_id product = (Except.error notFound, s, none) := by
  simp only [update_product, update_in_db_none s.products_db product_id product h]

/-- Witness for C4 on a one-product catalog and an absent identifier. -/
theorem c4_witness :
    update_product ⟨[{ toProduct := prodX, id := 1 }], 2⟩ 5 prodY =
      (Except.error notFound, ⟨[{ toProduct := prodX, id := 1 }], 2⟩, none) :=
  c4_update_not_found _ _ _ (by decide)

/-! ## Claim C5 (corrected) -/

/-- C5 as stated is false: it quantifies over every catalog state, but
`get` returns the first id match, so in a state where the counter
already collides with a stored identifier (reachable, see C9) the
product fetched after create is the pre-existing entry, not the one just
created. -/
theorem c5_counterexample :
    get_product (create_product ⟨[{ toProduct := prodX, id := 1 }], 1⟩ prodY).2.1
        (create_product ⟨[{ toProduct := prodX, id := 1 }], 1⟩ prodY).1.id =
      Except.ok { toProduct := prodX, id := 1 } ∧
    prodX ≠ prodY :=
  ⟨rfl, by decide⟩

/-- C5 amended: for every catalog state whose next-identifier counter is
not the identifier of any present product, create returns a stored
product carrying that fresh (not previously present) identifier, and a
subsequent get on it yields exactly the input product in all fields. -/
theorem c5_create_then_get (s : CatalogState) (product : Product)
    (h : ∀ p ∈ s.products_db, p.id ≠ s.product_id_counter) :
    (create_product s product).1.id = s.product_id_counter ∧
    (∀ p ∈ s.products_db, p.id ≠ (create_product s product).1.id) ∧
    get_product (create_product s product).2.1 (create_product s product).1.id =
      Except.ok { toProduct := product, id := s.product_id_counter } := by
  refine ⟨rfl, h, ?_⟩
  simp only [get_product, create_product]
  rw [find_product_append _ _ _ h]
  simp [find_product]

/-- Witness for the amended C5 on a fresh-counter state. -/
theorem c5_witness :
    (create_product ⟨[{ toProduct := prodX, id := 1 }], 2⟩ prodY).1.id = 2 ∧
    (∀ p ∈ ({ products_db := [{ toProduct := prodX, id := 1 }], product_id_counter := 2 } :
        CatalogState).products_db,
      p.id ≠ (create_product ⟨[{ toProduct := prodX, id := 1 }], 2⟩ prodY).1.id) ∧
    get_product (create_product ⟨[{ toProduct := prodX, id := 1 }], 2⟩ prodY).2.1
        (create_product ⟨[{ toProduct := prodX, id := 1 }], 2⟩ prodY).1.id =
      Except.ok { toProduct := prodY, id := 2 } :=
  c5_create_then_get ⟨[{ toProduct := prodX, id := 1 }], 2⟩ prodY (by decide)

/-! ## Claim C10 -/

/-- C10: when the identifier is present, update replaces exactly the
first matching entry in place — same position, every other entry and the
listing order unchanged — and delete removes exactly that entry,
preserving the relative order of the rest; both rewrite the durable
file with the resulting list and leave the counter unchanged. -/
theorem c10_update_delete_frame (s : CatalogState) (product_id : Int) (product : Product)
    (h : ∃ p ∈ s.products_db, p.id = product_id) :
    ∃ pre q post,
      get_products s = pre ++ q :: post ∧
      q.id = product_id ∧
      (∀ r ∈ pre, r.id ≠ product_id) ∧
      update_product s product_id product =
        (Except.ok { toProduct := product, id := product_id },
         ⟨pre ++ { toProduct := product, id := product_id } :: post, s.product_id_counter⟩,
         some (save_products (pre ++ { toProduct := product, id := product_id } :: post)
           s.product_id_counter)) ∧
      delete_product s product_id =
        (Except.ok "Produto excluído com sucesso", ⟨pre ++ post, s.product_id_counter⟩,
         some (save_products (pre ++ post) s.product_id_counter)) := by
  obtain ⟨pre, q, post, hl, hqid, hpre, hupd, hdel⟩ :=
    crud_first_match s.products_db product_id product h
  refine ⟨pre, q, post, ?_, hqid, hpre, ?_, ?_⟩
  · simpa [get_products] using hl
  · simp only [update_product, hupd]
  · simp only [delete_product, hdel]

/-- Witness for C10 on a two-product catalog, updating and deleting the
second entry. -/
theorem c10_witness :
    ∃ pre q post,
      get_products ⟨[{ toProduct := prodX, id := 1 }, { toProduct := prodY, id := 2 }], 3⟩ =
        pre ++ q :: post ∧
      q.id = 2 ∧
      (∀ r ∈ pre, r.id ≠ 2) ∧
      update_product ⟨[{ toProduct := prodX, id := 1 }, { toProduct := prodY, id := 2 }], 3⟩
          2 prodX =
        (Except.ok { toProduct := prodX, id := 2 },
         ⟨pre ++ { toProduct := prodX, id := 2 } :: post, 3⟩,
         some (save_products (pre ++ { toProduct := prodX, id := 2 } :: post) 3)) ∧
      delete_product ⟨[{ toProduct := prodX, id := 1 }, { toProduct := prodY, id := 2 }], 3⟩ 2 =
        (Except.ok "Produto excluído com sucesso", ⟨pre ++ post, 3⟩,
         some (save_products (pre ++ post) 3)) :=
  c10_update_delete_frame
    ⟨[{ toProduct := prodX, id := 1 }, { toProduct := prodY, id := 2 }], 3⟩ 2 prodX
    (by decide)

/-! ## Claim C7 -/

theorem decodeProduct_encodeProduct (p : ProductInDB) :
    decodeProduct (encodeProduct p) = some p := by
  obtain ⟨⟨t, d, c, pr, im, br, mo, yr⟩, i⟩ := p
  cases im <;> cases br <;> cases mo <;> cases yr <;> rfl

theorem decodeList_map_encode (l : List ProductInDB) :
    decodeList (l.map encodeProduct) = some l := by
  induction l with
  | nil => rfl
  | cons p rest ih => simp [decodeList, decodeProduct_encodeProduct, ih]

/-- C7: writing any ordered product sequence and counter with
`save_products` and reading the document back with `load_products`
returns exactly the stored product array (decoding to the identical
ordered sequence) and the identical counter; strings — including
non-ASCII text, over which the sequence is universally quantified — are
stored and recovered verbatim. -/
theorem c7_save_load_roundtrip (products : List ProductInDB) (counter : Int) :
    load_products (some (save_products products counter)) =
      (JValue.jarr (products.map encodeProduct), JValue.jint counter) ∧
    decodeList (products.map encodeProduct) = some products :=
  ⟨rfl, decodeList_map_encode products⟩

/-! ## Claim C9 -/

/-- C9: when the durable file parses to an object with no `counter`
field, `load_products` yields counter 1 whatever the stored products
are; consequently a loaded state can contain identifiers ≥ 1 while the
counter is 1, and the next create then assigns an identifier equal to
one already present. -/
theorem c9_missing_counter_defaults (fields : List (String × JValue))
    (h : jget fields "counter" = none) :
    (load_products (some (JValue.jobj fields))).2 = JValue.jint 1 ∧
    (∃ xs products,
       load_products (some (JValue.jobj [("products", JValue.jarr xs)])) =
         (JValue.jarr xs, JValue.jint 1) ∧
       decodeList xs = some products ∧
       (∃ p ∈ products, 1 ≤ p.id) ∧
       (∀ product : Product, ∃ q ∈ products,
          (create_product ⟨products, 1⟩ product).1.id = q.id)) := by
  constructor
  · simp [load_products, h]
  · refine ⟨[encodeProduct { toProduct := prodX, id := 1 }],
      [{ toProduct := prodX, id := 1 }], rfl, rfl,
      ⟨{ toProduct := prodX, id := 1 }, by simp, le_refl 1⟩, ?_⟩
    intro product
    exact ⟨{ toProduct := prodX, id := 1 }, by simp, rfl⟩

/-- Witness for C9 on a file holding products but no counter field. -/
theorem c9_witness :
    (load_products (some (JValue.jobj [("products", JValue.jarr [])]))).2 = JValue.jint 1 :=
  (c9_missing_counter_defaults [("products", JValue.jarr [])] rfl).1

/-! ## Claim C2 (corrected) -/

theorem isPrefixChars_iff (needle hay : List Char) :
    isPrefixChars needle hay = true ↔ ∃ post, hay = needle ++ post := by
  induction needle generalizing hay with
  | nil =>
      simp only [isPrefixChars, List.nil_append, true_iff]
      exact ⟨hay, rfl⟩
  | cons a as ih =>
      cases hay with
      | nil =>
          simp only [isPrefixChars, List.cons_append]
          constructor
          · intro hfalse; exact absurd hfalse (by simp)
          · rintro ⟨post, hpost⟩; exact absurd hpost (by simp)
      | cons b bs =>
          simp only [isPrefixChars, Bool.and_eq_true, beq_iff_eq, ih bs,
            List.cons_append, List.cons_eq_cons]
          constructor
          · rintro ⟨rfl, post, rfl⟩; exact ⟨post, rfl, rfl⟩
          · rintro ⟨post, rfl, rfl⟩; exact ⟨rfl, post, rfl⟩

theorem hasSubstr_iff (needle hay : List Char) :
    hasSubstr needle hay = true ↔ ∃ pre post, hay = pre ++ needle ++ post := by
  induction hay with
  | nil =>
      simp only [hasSubstr, isPrefixChars_iff]
      constructor
      · rintro ⟨post, hpost⟩
        exact ⟨[], post, by simpa using hpost⟩
      · rintro ⟨pre, post, hpost⟩
        have h2 := List.append_eq_nil.mp hpost.symm
        have h3 := List.append_eq_nil.mp h2.1
        exact ⟨[], by simp [h3.2]⟩
  | cons c rest ih =>
      simp only [hasSubstr, Bool.or_eq_true, isPrefixChars_iff, ih]
      constructor
      · rintro (⟨post, hpost⟩ | ⟨pre, post, hpost⟩)
        · exact ⟨[], post, by simpa using hpost⟩
        · exact ⟨c :: pre, post, by simp [hpost]⟩
      · rintro ⟨pre, post, hpost⟩
        cases pre with
        | nil => exact Or.inl ⟨post, by simpa using hpost⟩
        | cons x xs =>
            right
            simp only [List.cons_append, List.cons_eq_cons] at hpost
            exact ⟨xs, post, hpost.2⟩

instance (needle hay : String) : Decidable (occursIn needle hay) :=
  decidable_of_iff (hasSubstr needle.data hay.data = true)
    (by rw [hasSubstr_iff]; exact Iff.rfl)

/-- The derivation rule with the claim's filter amended to substring
containment: keep every knowledge-base entry in which at least one
whitespace-delimited token of the user message occurs, case-
insensitively, as a contiguous substring; join matches with newlines in
the knowledge base's order, else the fixed no-match marker. -/
def contexto_por_substrings (preferencia_usuario : String) : String :=
  let resultados := base_conhecimento.filter
    (fun doc => decide (∃ palavra ∈ tokensOf preferencia_usuario,
      occursIn (lowerStr palavra) (lowerStr doc)))
  if resultados ≠ [] then String.intercalate "\n" resultados
  else "Nenhuma informação relevante encontrada."

/-- C2 as stated is false: the code tests whether a message token occurs
as a substring of an entry, not whether the entry shares the token.  For
the message "rev" no knowledge-base entry shares a whitespace-delimited
token with the message, so the claim predicts the no-match marker, but
the code keeps the first entry because "rev" occurs inside
"revolucionado". -/
theorem c2_counterexample :
    buscar_conteudo_relevante "rev" =
      "A inteligência artificial tem revolucionado o mundo da arte generativa, permitindo a criação de obras únicas por meio de redes neurais." ∧
    contexto_por_tokens "rev" = "Nenhuma informação relevante encontrada." ∧
    buscar_conteudo_relevante "rev" ≠ contexto_por_tokens "rev" :=
  ⟨rfl, rfl, by decide⟩

/-- C2 amended: for every user message, the derived context is the
newline-join, in the knowledge base's fixed order, of exactly those
entries in which at least one whitespace-delimited token of the message
occurs case-insensitively as a contiguous substring, or the literal
no-match marker when no entry qualifies. -/
theorem c2_derived_context (preferencia_usuario : String) :
    buscar_conteudo_relevante preferencia_usuario =
      contexto_por_substrings preferencia_usuario := by
  have hpoint : ∀ doc ∈ base_conhecimento,
      ((tokensOf preferencia_usuario).any
        (fun palavra => strIn (lowerStr palavra) (lowerStr doc)))
        = decide (∃ palavra ∈ tokensOf preferencia_usuario,
            occursIn (lowerStr palavra) (lowerStr doc)) := by
    intro doc _
    rcases hb : (tokensOf preferencia_usuario).any
        (fun palavra => strIn (lowerStr palavra) (lowerStr doc)) with - | -
    · have hne : ¬ ∃ palavra ∈ tokensOf preferencia_usuario,
          occursIn (lowerStr palavra) (lowerStr doc) := by
        rintro ⟨palavra, hmem, hocc⟩
        have hs : strIn (lowerStr palavra) (lowerStr doc) = true := by
          rw [strIn, hasSubstr_iff]
          exact hocc
        have hany : (tokensOf preferencia_usuario).any
            (fun palavra => strIn (lowerStr palavra) (lowerStr doc)) = true :=
          List.any_eq_true.mpr ⟨palavra, hmem, hs⟩
        rw [hb] at hany
        exact Bool.false_ne_true hany
      rw [decide_eq_false hne]
    · obtain ⟨palavra, hmem, hpal⟩ := List.any_eq_true.mp hb
      have hocc : occursIn (lowerStr palavra) (lowerStr doc) := by
        simp only [strIn, hasSubstr_iff] at hpal
        exact hpal
      rw [decide_eq_true ⟨palavra, hmem, hocc⟩]
  unfold buscar_conteudo_relevante contexto_por_substrings
  rw [List.filter_congr hpoint]

/-! ## Claim C1 (code bug) -/

/-- C1 evaluated against the code: a request whose message is empty is
rejected without any completion-provider submission (no first-call
messages, no follow-up, no weather call), but the rejection reaches the
client as HTTP 500, not 400 — the `HTTPException(400, "Mensagem vazia")`
is raised inside the handler's blanket `try/except Exception`, which
re-raises it as `HTTPException(500, str(e))`. -/
theorem c1_empty_message_rejected (first second : ProviderMessage)
    (weather_api : Rat → Rat → Option Rat) (request : BuddyRequest)
    (h : request.message = "") :
    process_buddy_request first second weather_api request =
      (Except.error ⟨500, strOfHTTPError ⟨400, "Mensagem vazia"⟩⟩, ⟨none, none, []⟩) := by
  simp [process_buddy_request, h]

/-- Witness for C1 at a concrete empty-message request. -/
theorem c1_witness :
    process_buddy_request ⟨"ok", []⟩ ⟨"ok2", []⟩ (fun _ _ => none) ⟨"", "", [], false⟩ =
      (Except.error ⟨500, strOfHTTPError ⟨400, "Mensagem vazia"⟩⟩, ⟨none, none, []⟩) :=
  c1_empty_message_rejected _ _ _ _ rfl

/-! ## Claim C6 -/

/-- C6: when the provider's first response carries a tool request, the
weather collaborator is invoked exactly once, with exactly the supplied
coordinates; its result (the fallback 25.0 when the lookup fails, the
failure never surfacing — the request still completes normally) is
appended after the assistant dump as a tool-role message; exactly one
follow-up submission of the extended sequence occurs; and the final
answer is the follow-up response's text whatever that response's own
tool requests are, so a second tool request is not serviced. -/
theorem c6_tool_round_trip (first second : ProviderMessage)
    (weather_api : Rat → Rat → Option Rat) (request : BuddyRequest)
    (tool_call : ToolCall) (rest : List ToolCall)
    (hmsg : request.message ≠ "") (htc : first.tool_calls = tool_call :: rest) :
    ∃ msgs : List Msg,
      (process_buddy_request first second weather_api request).2 =
        ⟨some msgs,
         some (msgs ++ [Msg.assistantDump first,
           Msg.toolResult tool_call.id
             (get_weather weather_api tool_call.latitude tool_call.longitude)]),
         [(tool_call.latitude, tool_call.longitude)]⟩ ∧
      (process_buddy_request first second weather_api request).1 =
        Except.ok ⟨second.content,
          if request.voice_enabled then
            some ("/api/buddy/speech?text=" ++ replaceSpaces second.content)
          else none⟩ ∧
      (weather_api tool_call.latitude tool_call.longitude = none →
        get_weather weather_api tool_call.latitude tool_call.longitude = 25) := by
  refine ⟨if request.history.isEmpty then
      [Msg.system systemPersona,
       Msg.user ("Oi Buddy! " ++ request.message ++ "\n\nContexto:\n" ++
         (if request.context = "" then buscar_conteudo_relevante request.message
          else request.context))]
    else request.history, ?_, ?_, ?_⟩
  · simp [process_buddy_request, hmsg, htc]
  · simp [process_buddy_request, hmsg, htc]
  · intro hw
    simp [get_weather, hw]

/-- Witness for C6: a concrete request whose first provider response
requests the weather tool at (10, 20) and whose weather lookup fails. -/
theorem c6_witness :
    ∃ msgs : List Msg,
      (process_buddy_request ⟨"", [⟨"call1", 10, 20⟩]⟩ ⟨"resposta", []⟩
          (fun _ _ => none) ⟨"Oi", "ctx", [], false⟩).2 =
        ⟨some msgs,
         some (msgs ++ [Msg.assistantDump ⟨"", [⟨"call1", 10, 20⟩]⟩,
           Msg.toolResult "call1" (get_weather (fun _ _ => none) 10 20)]),
         [(10, 20)]⟩ ∧
      (process_buddy_request ⟨"", [⟨"call1", 10, 20⟩]⟩ ⟨"resposta", []⟩
          (fun _ _ => none) ⟨"Oi", "ctx", [], false⟩).1 =
        Except.ok ⟨"resposta",
          if (⟨"Oi", "ctx", [], false⟩ : BuddyRequest).voice_enabled then
            some ("/api/buddy/speech?text=" ++ replaceSpaces "resposta")
          else none⟩ ∧
      ((fun _ _ => (none : Option Rat)) (10 : Rat) (20 : Rat) = none →
        get_weather (fun _ _ => none) 10 20 = 25) :=
  c6_tool_round_trip ⟨"", [⟨"call1", 10, 20⟩]⟩ ⟨"resposta", []⟩ (fun _ _ => none)
    ⟨"Oi", "ctx", [], false⟩ ⟨"call1", 10, 20⟩ [] (by decide) rfl

/-! ## Claim C8 -/

/-- C8: every assistant request that completes does so with a final
answer text, and its response carries the speech-fetch reference
`/api/buddy/speech?text=` followed by that text with each space escaped
as `%20` exactly when `voice_enabled` is true, and no reference
(`audio_url = None`) when it is false. -/
theorem c8_voice_toggle (first second : ProviderMessage)
    (weather_api : Rat → Rat → Option Rat) (request : BuddyRequest)
    (hmsg : request.message ≠ "") :
    ∃ r : BuddyResponse,
      (process_buddy_request first second weather_api request).1 = Except.ok r ∧
      (request.voice_enabled = true →
        r.audio_url = some ("/api/buddy/speech?text=" ++ replaceSpaces r.response)) ∧
      (request.voice_enabled = false → r.audio_url = none) := by
  cases htc : first.tool_calls with
  | nil =>
      refine ⟨⟨first.content,
        if request.voice_enabled then
          some ("/api/buddy/speech?text=" ++ replaceSpaces first.content)
        else none⟩, ?_, ?_, ?_⟩
      · simp [process_buddy_request, hmsg, htc]
      · intro hv; simp [hv]
      · intro hv; simp [hv]
  | cons tool_call rest =>
      refine ⟨⟨second.content,
        if request.voice_enabled then
          some ("/api/buddy/speech?text=" ++ replaceSpaces second.content)
        else none⟩, ?_, ?_, ?_⟩
      · simp [process_buddy_request, hmsg, htc]
      · intro hv; simp [hv]
      · intro hv; simp [hv]

/-- Witness for C8: a voice-enabled request whose final text is
"Hello", yielding the escaped speech-fetch reference. -/
theorem c8_witness :
    ∃ r : BuddyResponse,
      (process_buddy_request ⟨"Hello", []⟩ ⟨"x", []⟩ (fun _ _ => none)
          ⟨"Oi", "ctx", [], true⟩).1 = Except.ok r ∧
      ((⟨"Oi", "ctx", [], true⟩ : BuddyRequest).voice_enabled = true →
        r.audio_url = some ("/api/buddy/speech?text=" ++ replaceSpaces r.response)) ∧
      ((⟨"Oi", "ctx", [], true⟩ : BuddyRequest).voice_enabled = false →
        r.audio_url = none) :=
  c8_voice_toggle ⟨"Hello", []⟩ ⟨"x", []⟩ (fun _ _ => none) ⟨"Oi", "ctx", [], true⟩
    (by decide)
